import Mathlib

/-!
Verification of the koruza-driver TLV message codec (src/message.c, src/message.h)
against its specification. The C data structures and functions are shallowly
embedded: byte buffers become `List Nat` (each element a uint8 value), the
in-place mutation of `message_t` becomes explicit state passing (each mutating
operation returns the result code together with the new message value), and
`malloc` outcomes are passed in as an explicit `alloc_ok : Bool` oracle where a
claim depends on the allocation-failure path.
-/

/-- Maximum number of TLVs inside a message (message.h, MAX_TLV_COUNT). -/
def MAX_TLV_COUNT : Nat := 25

/-- TLV type tags from message.h (tlv_type_t); only the tags exercised by the
verified operations are needed as named constants. -/
def TLV_COMMAND : Nat := 1

/-- TLV type tag of a reply record (message.h). -/
def TLV_REPLY : Nat := 2

/-- TLV type tag of a checksum record (message.h). -/
def TLV_CHECKSUM : Nat := 3

/-- TLV type tag of a motor position record (message.h). -/
def TLV_MOTOR_POSITION : Nat := 4

/-- TLV type tag of a current reading record (message.h). -/
def TLV_CURRENT_READING : Nat := 5

/-- Message operation result codes (message.h, message_result_t). -/
inductive message_result_t where
  | MESSAGE_SUCCESS
  | MESSAGE_ERROR_TOO_MANY_TLVS
  | MESSAGE_ERROR_OUT_OF_MEMORY
  | MESSAGE_ERROR_BUFFER_TOO_SMALL
  | MESSAGE_ERROR_PARSE_ERROR
  | MESSAGE_ERROR_CHECKSUM_MISMATCH
  | MESSAGE_ERROR_TLV_NOT_FOUND
  deriving DecidableEq, Repr

/-- Numeric values of the result codes (message.h assigns 0, -1, ..., -6);
needed because message_serialize returns a ssize_t that is either a byte count
or a negative error code. -/
def message_result_code : message_result_t → Int
  | .MESSAGE_SUCCESS => 0
  | .MESSAGE_ERROR_TOO_MANY_TLVS => -1
  | .MESSAGE_ERROR_OUT_OF_MEMORY => -2
  | .MESSAGE_ERROR_BUFFER_TOO_SMALL => -3
  | .MESSAGE_ERROR_PARSE_ERROR => -4
  | .MESSAGE_ERROR_CHECKSUM_MISMATCH => -5
  | .MESSAGE_ERROR_TLV_NOT_FOUND => -6

/-- Modelled from the spec: one shift-xor round of the CRC32 primitive.
crc32.c/crc32.h are not under src/; the spec (section 1) assumes an external
pure function crc32(running_value, bytes) -> uint32, the standard reflected
CRC-32 with polynomial 0xEDB88320. -/
def crc32_round (c : Nat) : Nat :=
  if c % 2 = 1 then (c / 2) ^^^ 0xEDB88320 else c / 2

/-- Modelled from the spec: one input byte folded into the CRC-32 state. -/
def crc32_byte (c b : Nat) : Nat :=
  crc32_round^[8] (c ^^^ (b % 256))

/-- Modelled from the spec: the running CRC32 primitive
crc32(running_value, bytes) -> uint32 (pre/post complemented, zlib style,
so that crc32 0 data is the standard CRC-32 of data and feeding the running
value back in continues the same stream). -/
def crc32 (crc : Nat) (data : List Nat) : Nat :=
  (data.foldl crc32_byte (crc ^^^ 0xFFFFFFFF)) ^^^ 0xFFFFFFFF

/-- Big-endian (network order) 4-byte image of a uint32, as produced in memory
by htonl on any host. -/
def htonl_bytes (v : Nat) : List Nat :=
  [v / 2 ^ 24 % 256, v / 2 ^ 16 % 256, v / 2 ^ 8 % 256, v % 256]

/-- Big-endian (network order) 2-byte image of a uint16, as produced in memory
by htons on any host. -/
def htons_bytes (v : Nat) : List Nat :=
  [v / 256 % 256, v % 256]

/-- Value of 4 big-endian bytes, as recovered by ntohl from wire bytes. -/
def be32_decode (b0 b1 b2 b3 : Nat) : Nat :=
  ((b0 * 256 + b1) * 256 + b2) * 256 + b3

/-- Two's complement 32-bit memory image of an int32 value. -/
def int32_to_uint32 (i : Int) : Nat :=
  (i % (2 ^ 32 : Int)).toNat

/-- Signed value of a 32-bit two's complement memory image. -/
def uint32_to_int32 (n : Nat) : Int :=
  if n < 2 ^ 31 then (n : Int) else (n : Int) - 2 ^ 32

/-- Representation of a TLV (message.h, tlv_t). The C struct's uint16 length
field always equals the size of the malloc'd value buffer in every state the
code constructs, so the length is represented by value.length. -/
structure tlv_t where
  type : Nat
  value : List Nat
  deriving DecidableEq, Repr

/-- Length of a TLV record (the C struct's length field). -/
def tlv_t.length (t : tlv_t) : Nat := t.value.length

/-- Representation of a protocol message (message.h, message_t); the length
field is the record count, represented by tlv.length. -/
structure message_t where
  tlv : List tlv_t
  deriving DecidableEq, Repr

/-- Record count of a message (the C struct's length field). -/
def message_t.length (m : message_t) : Nat := m.tlv.length

/-- message_init (message.c): produces the empty message (memset to zero). -/
def message_init : message_t := ⟨[]⟩

/-- message_checksum (message.c): running CRC32 accumulated in record order
over every record's value bytes, starting from 0, returned through htonl.
Every use of the returned uint32 in the code reads its memory image, which is
the big-endian byte string of the CRC value on any host, so the model returns
those 4 bytes. -/
def message_checksum (message : message_t) : List Nat :=
  htonl_bytes (message.tlv.foldl (fun checksum t => crc32 checksum t.value) 0)

/-- message_tlv_add (message.c): appends one record after a capacity check.
alloc_ok is the outcome of the malloc call: when it fails the C code returns
MESSAGE_ERROR_OUT_OF_MEMORY before touching the record count or any stored
record. The caller's buffer is copied (value enters the new record by value). -/
def message_tlv_add (message : message_t) (type : Nat) (value : List Nat)
    (alloc_ok : Bool) : message_result_t × message_t :=
  if message.length ≥ MAX_TLV_COUNT then
    (.MESSAGE_ERROR_TOO_MANY_TLVS, message)
  else if !alloc_ok then
    (.MESSAGE_ERROR_OUT_OF_MEMORY, message)
  else
    (.MESSAGE_SUCCESS, ⟨message.tlv ++ [⟨type, value⟩]⟩)

/-- message_tlv_add_command (message.c): the command is narrowed to a uint8
and appended as a TLV_COMMAND record of length 1. -/
def message_tlv_add_command (message : message_t) (command : Nat)
    (alloc_ok : Bool) : message_result_t × message_t :=
  message_tlv_add message TLV_COMMAND [command % 256] alloc_ok

/-- message_tlv_add_reply (message.c): the reply is narrowed to a uint8 and
appended as a TLV_REPLY record of length 1. -/
def message_tlv_add_reply (message : message_t) (reply : Nat)
    (alloc_ok : Bool) : message_result_t × message_t :=
  message_tlv_add message TLV_REPLY [reply % 256] alloc_ok

/-- Contents of the motor position TLV (message.h, tlv_motor_position_t). -/
structure tlv_motor_position_t where
  x : Int
  y : Int
  z : Int
  deriving DecidableEq, Repr

/-- Wire image of a motor position record: each int32 field independently
through htonl, concatenated in declaration order x, y, z (message.c,
message_tlv_add_motor_position builds tmp and passes its 12-byte memory). -/
def motor_position_bytes (position : tlv_motor_position_t) : List Nat :=
  htonl_bytes (int32_to_uint32 position.x) ++
  htonl_bytes (int32_to_uint32 position.y) ++
  htonl_bytes (int32_to_uint32 position.z)

/-- message_tlv_add_motor_position (message.c). -/
def message_tlv_add_motor_position (message : message_t)
    (position : tlv_motor_position_t) (alloc_ok : Bool) :
    message_result_t × message_t :=
  message_tlv_add message TLV_MOTOR_POSITION (motor_position_bytes position) alloc_ok

/-- message_tlv_add_current_reading (message.c): the uint16 goes through htons
and is appended as a 2-byte record. -/
def message_tlv_add_current_reading (message : message_t) (current : Nat)
    (alloc_ok : Bool) : message_result_t × message_t :=
  message_tlv_add message TLV_CURRENT_READING (htons_bytes current) alloc_ok

/-- message_tlv_add_checksum (message.c): computes the checksum over the
records currently in the message and appends it as a TLV_CHECKSUM record. -/
def message_tlv_add_checksum (message : message_t) (alloc_ok : Bool) :
    message_result_t × message_t :=
  message_tlv_add message TLV_CHECKSUM (message_checksum message) alloc_ok

/-- Loop body of message_parse (message.c, lines 51-98), consuming the
unparsed suffix of the input. Each iteration: capacity check, one type byte,
two big-endian length bytes (MESSAGE_ERROR_PARSE_ERROR if fewer than 2 bytes
follow the type byte), then the declared number of value bytes
(MESSAGE_ERROR_PARSE_ERROR if fewer remain). For a TLV_CHECKSUM record the
checksum over the records appended so far (the current record is stored but
the count not yet incremented, so it is excluded) is compared against the
just-read value; the C comparison is memcmp(&checksum, value, sizeof(uint32_t)
not-equal 0): the size argument is the constant-folded boolean 1, so only the
first byte of the network-order checksum is compared, modelled by take 1.
Every error path frees the partial message and leaves the zeroed (empty)
message behind. The fuel argument only makes the recursion structural: each
iteration consumes at least three input bytes, so with the fuel
message_parse supplies the zero-fuel case is unreachable
(message_parse_tlvs_fuel below proves the result independent of any
sufficient fuel). -/
def message_parse_tlvs : Nat → message_t → List Nat →
    message_result_t × message_t
  | _, message, [] => (.MESSAGE_SUCCESS, message)
  | 0, _, _ :: _ => (.MESSAGE_ERROR_PARSE_ERROR, message_init)
  | fuel + 1, message, type :: rest =>
    if message.length ≥ MAX_TLV_COUNT then
      (.MESSAGE_ERROR_TOO_MANY_TLVS, message_init)
    else
      match rest with
      | lhi :: llo :: rest2 =>
        let len := lhi * 256 + llo
        if rest2.length < len then
          (.MESSAGE_ERROR_PARSE_ERROR, message_init)
        else
          let value := rest2.take len
          if type = TLV_CHECKSUM ∧ (message_checksum message).take 1 ≠ value.take 1 then
            (.MESSAGE_ERROR_CHECKSUM_MISMATCH, message_init)
          else
            message_parse_tlvs fuel ⟨message.tlv ++ [⟨type, value⟩]⟩ (rest2.drop len)
      | _ => (.MESSAGE_ERROR_PARSE_ERROR, message_init)

/-- message_parse (message.c): resets the destination message and runs the
parse loop over the whole buffer. -/
def message_parse (data : List Nat) : message_result_t × message_t :=
  message_parse_tlvs data.length message_init data

/-- Wire encoding of one record as written by one iteration of
message_serialize (message.c, lines 241-245): the type byte, the htons image
of the length, then the value bytes. -/
def tlv_serialize (t : tlv_t) : List Nat :=
  t.type :: htons_bytes t.length ++ t.value

/-- Loop of message_serialize (message.c, lines 235-249): walks the records in
insertion order tracking the remaining destination capacity, failing with
MESSAGE_ERROR_BUFFER_TOO_SMALL when the next record does not fit; written
accumulates the bytes stored into the destination buffer so far. On success
the C function returns the final offset, which equals the number of bytes
written. -/
def message_serialize_tlvs : List tlv_t → Nat → List Nat → Int × List Nat
  | [], _, written => ((written.length : Int), written)
  | t :: rest, remaining_buffer, written =>
    let tlv_length := 1 + 2 + t.length
    if remaining_buffer < tlv_length then
      (message_result_code .MESSAGE_ERROR_BUFFER_TOO_SMALL, written)
    else
      message_serialize_tlvs rest (remaining_buffer - tlv_length)
        (written ++ tlv_serialize t)

/-- message_serialize (message.c): serializes into a destination buffer of the
given capacity; returns the ssize_t result (byte count or negative error code)
together with the bytes written. -/
def message_serialize (length : Nat) (message : message_t) : Int × List Nat :=
  message_serialize_tlvs message.tlv length []

/-- message_serialized_size (message.c): 1 + 2 + length summed over records. -/
def message_serialized_size (message : message_t) : Nat :=
  message.tlv.foldl (fun size t => size + (1 + 2 + t.length)) 0

/-- Outcome of message_tlv_get: the C function copies the matched record's
length bytes into the destination and returns MESSAGE_SUCCESS, returns
MESSAGE_ERROR_TLV_NOT_FOUND when no record matches, and aborts via
assert(tlv.length <= destination capacity) when the matched record is larger
than the destination; the abort is modelled as assert_failed. -/
inductive get_result where
  | success (value : List Nat)
  | assert_failed
  | not_found
  deriving DecidableEq, Repr

/-- Loop of message_tlv_get (message.c, lines 158-164) over the record list. -/
def message_tlv_get_go : List tlv_t → Nat → Nat → get_result
  | [], _, _ => .not_found
  | t :: rest, type, length =>
    if t.type = type then
      if t.length ≤ length then .success t.value else .assert_failed
    else
      message_tlv_get_go rest type length

/-- message_tlv_get (message.c): first record of the given type in insertion
order, with the destination-capacity assertion. -/
def message_tlv_get (message : message_t) (type : Nat) (length : Nat) :
    get_result :=
  message_tlv_get_go message.tlv type length

/-- Outcome of a typed getter. undef marks the paths where the C code leaves
part of the destination variable unwritten (a matched record shorter than the
destination), so the result depends on uninitialized memory. -/
inductive typed_get_result (α : Type) where
  | success (a : α)
  | assert_failed
  | not_found
  | undef
  deriving DecidableEq, Repr

/-- message_tlv_get_command (message.c): reads the first TLV_COMMAND record
into a 1-byte destination. -/
def message_tlv_get_command (message : message_t) : typed_get_result Nat :=
  match message_tlv_get message TLV_COMMAND 1 with
  | .success [b] => .success b
  | .success _ => .undef
  | .assert_failed => .assert_failed
  | .not_found => .not_found

/-- message_tlv_get_motor_position (message.c): reads the first
TLV_MOTOR_POSITION record into a 12-byte struct, then each field through
ntohl. -/
def message_tlv_get_motor_position (message : message_t) :
    typed_get_result tlv_motor_position_t :=
  match message_tlv_get message TLV_MOTOR_POSITION 12 with
  | .success [x0, x1, x2, x3, y0, y1, y2, y3, z0, z1, z2, z3] =>
      .success ⟨uint32_to_int32 (be32_decode x0 x1 x2 x3),
                uint32_to_int32 (be32_decode y0 y1 y2 y3),
                uint32_to_int32 (be32_decode z0 z1 z2 z3)⟩
  | .success _ => .undef
  | .assert_failed => .assert_failed
  | .not_found => .not_found

/-- Well-formedness of a record as guaranteed by the C types: the type tag is
a uint8, the length a uint16, every value byte a uint8. -/
def tlv_wf (t : tlv_t) : Prop :=
  t.type < 256 ∧ t.length ≤ 65535 ∧ ∀ b ∈ t.value, b < 256

instance (t : tlv_t) : Decidable (tlv_wf t) := by
  unfold tlv_wf
  infer_instance

/-- Checksum consistency of a record sequence relative to the records acc that
precede it: every TLV_CHECKSUM record's value must pass the parse-time
verification (first byte of the network-order checksum over the preceding
records, matching the single byte the C memcmp compares). -/
def checksum_records_ok : List tlv_t → List tlv_t → Bool
  | _, [] => true
  | acc, t :: rest =>
    ((t.type != TLV_CHECKSUM) ||
      ((message_checksum ⟨acc⟩).take 1 == t.value.take 1))
      && checksum_records_ok (acc ++ [t]) rest

/-- Serialization of a record list: the concatenation of the per-record wire
encodings in insertion order (the bytes message_serialize stores when the
destination is large enough). -/
def tlvs_serialize : List tlv_t → List Nat
  | [] => []
  | t :: rest => tlv_serialize t ++ tlvs_serialize rest

set_option maxRecDepth 10000

theorem message_serialized_size_shift (ts : List tlv_t) (n : Nat) :
    ts.foldl (fun size t => size + (1 + 2 + t.length)) n
      = n + message_serialized_size ⟨ts⟩ := by
  induction ts generalizing n with
  | nil => simp [message_serialized_size]
  | cons t rest ih =>
    simp only [message_serialized_size, List.foldl_cons]
    rw [ih, ih (0 + (1 + 2 + t.length))]
    omega

theorem message_serialized_size_cons (t : tlv_t) (ts : List tlv_t) :
    message_serialized_size ⟨t :: ts⟩
      = (1 + 2 + t.length) + message_serialized_size ⟨ts⟩ := by
  simp only [message_serialized_size, List.foldl_cons]
  rw [message_serialized_size_shift ts (0 + (1 + 2 + t.length)),
    message_serialized_size_shift ts 0]
  omega

theorem tlv_serialize_length (t : tlv_t) :
    (tlv_serialize t).length = 1 + 2 + t.length := by
  simp [tlv_serialize, htons_bytes, tlv_t.length]
  omega

theorem crc32_nil (c : Nat) : crc32 c [] = c := by
  simp only [crc32, List.foldl_nil]
  exact Nat.xor_cancel_right 0xFFFFFFFF c

theorem crc32_append (c : Nat) (a b : List Nat) :
    crc32 (crc32 c a) b = crc32 c (a ++ b) := by
  simp only [crc32, List.foldl_append]
  rw [Nat.xor_cancel_right]

theorem crc32_fold_records (ts : List tlv_t) (c : Nat) :
    ts.foldl (fun checksum t => crc32 checksum t.value) c
      = crc32 c (ts.map tlv_t.value).flatten := by
  induction ts generalizing c with
  | nil => simp [crc32_nil]
  | cons t rest ih =>
    simp only [List.foldl_cons, List.map_cons, List.flatten_cons]
    rw [ih, crc32_append]

theorem message_serialize_tlvs_success (ts : List tlv_t) :
    ∀ (remaining : Nat) (written : List Nat),
      message_serialized_size ⟨ts⟩ ≤ remaining →
      message_serialize_tlvs ts remaining written
        = (((written.length + message_serialized_size ⟨ts⟩ : Nat) : Int),
           written ++ tlvs_serialize ts) := by
  induction ts with
  | nil =>
    intro remaining written _
    simp [message_serialize_tlvs, tlvs_serialize, message_serialized_size]
  | cons t rest ih =>
    intro remaining written h
    rw [message_serialized_size_cons] at h
    simp only [message_serialize_tlvs, tlvs_serialize]
    rw [if_neg (by omega)]
    rw [ih (remaining - (1 + 2 + t.length)) (written ++ tlv_serialize t)
      (by omega)]
    rw [message_serialized_size_cons]
    simp only [List.length_append, tlv_serialize_length, List.append_assoc]
    norm_num
    omega

theorem message_serialize_tlvs_fail (ts : List tlv_t) :
    ∀ (remaining : Nat) (written : List Nat),
      remaining < message_serialized_size ⟨ts⟩ →
      (message_serialize_tlvs ts remaining written).1
        = message_result_code .MESSAGE_ERROR_BUFFER_TOO_SMALL := by
  induction ts with
  | nil =>
    intro remaining written h
    rw [message_serialized_size] at h
    simp at h
  | cons t rest ih =>
    intro remaining written h
    rw [message_serialized_size_cons] at h
    simp only [message_serialize_tlvs]
    by_cases hfit : remaining < 1 + 2 + t.length
    · rw [if_pos hfit]
    · rw [if_neg hfit]
      exact ih _ _ (by omega)

theorem message_tlv_get_go_eq (l : List tlv_t) (ty cap : Nat) :
    message_tlv_get_go l ty cap =
      match l.find? (fun t => t.type == ty) with
      | none => .not_found
      | some r => if r.length ≤ cap then .success r.value else .assert_failed := by
  induction l with
  | nil => simp [message_tlv_get_go, List.find?_nil]
  | cons t rest ih =>
    by_cases h : t.type = ty
    · rw [List.find?_cons_of_pos _ (by simpa using h)]
      simp [message_tlv_get_go, h]
    · rw [List.find?_cons_of_neg _ (by simpa using h)]
      simp only [message_tlv_get_go, if_neg h]
      exact ih

theorem message_parse_tlvs_fuel (fuel₁ : Nat) :
    ∀ (fuel₂ : Nat) (m : message_t) (data : List Nat),
      data.length ≤ fuel₁ → data.length ≤ fuel₂ →
      message_parse_tlvs fuel₁ m data = message_parse_tlvs fuel₂ m data := by
  induction fuel₁ with
  | zero =>
    intro fuel₂ m data h1 h2
    have : data = [] := List.eq_nil_of_length_eq_zero (by omega)
    subst this
    cases fuel₂ <;> rfl
  | succ f ih =>
    intro fuel₂ m data h1 h2
    cases data with
    | nil => cases fuel₂ <;> rfl
    | cons ty rest =>
      cases fuel₂ with
      | zero => simp at h2
      | succ g =>
        simp only [message_parse_tlvs]
        by_cases hcap : m.length ≥ MAX_TLV_COUNT
        · simp [hcap]
        · simp only [if_neg hcap]
          cases rest with
          | nil => rfl
          | cons lhi rest1 =>
            cases rest1 with
            | nil => rfl
            | cons llo rest2 =>
              by_cases hlen : rest2.length < lhi * 256 + llo
              · simp only [hlen, if_true]
              · simp only [hlen, if_false]
                by_cases hcs : ty = TLV_CHECKSUM ∧
                    (message_checksum m).take 1 ≠ (rest2.take (lhi * 256 + llo)).take 1
                · simp only [if_pos hcs]
                · simp only [if_neg hcs]
                  apply ih
                  · simp only [List.length_drop]
                    simp only [List.length_cons] at h1
                    omega
                  · simp only [List.length_drop]
                    simp only [List.length_cons] at h2
                    omega

theorem message_parse_tlvs_length_le (fuel : Nat) :
    ∀ (m : message_t) (data : List Nat), m.length ≤ MAX_TLV_COUNT →
      ((message_parse_tlvs fuel m data).2).length ≤ MAX_TLV_COUNT := by
  induction fuel with
  | zero =>
    intro m data hm
    cases data with
    | nil => exact hm
    | cons ty rest => simp [message_parse_tlvs, message_init, message_t.length]
  | succ f ih =>
    intro m data hm
    cases data with
    | nil => exact hm
    | cons ty rest =>
      simp only [message_parse_tlvs]
      by_cases hcap : m.length ≥ MAX_TLV_COUNT
      · rw [if_pos hcap]
        simp [message_init, message_t.length]
      · simp only [if_neg hcap]
        cases rest with
        | nil => simp [message_init, message_t.length]
        | cons lhi rest1 =>
          cases rest1 with
          | nil => simp [message_init, message_t.length]
          | cons llo rest2 =>
            by_cases hlen : rest2.length < lhi * 256 + llo
            · simp [hlen, message_init, message_t.length]
            · simp only [hlen, if_false]
              by_cases hcs : ty = TLV_CHECKSUM ∧
                  (message_checksum m).take 1 ≠ (rest2.take (lhi * 256 + llo)).take 1
              · simp [hcs, message_init, message_t.length]
              · simp only [if_neg hcs]
                apply ih
                simp only [message_t.length, List.length_append, List.length_cons,
                  List.length_nil]
                simp only [message_t.length, MAX_TLV_COUNT] at hcap ⊢
                omega

theorem message_parse_tlvs_append (rest : List tlv_t) :
    ∀ (acc : List tlv_t) (d : List Nat) (fuel₁ fuel₂ : Nat),
      acc.length + rest.length ≤ MAX_TLV_COUNT →
      (∀ t ∈ rest, t.length ≤ 65535) →
      checksum_records_ok acc rest = true →
      (tlvs_serialize rest ++ d).length ≤ fuel₁ →
      d.length ≤ fuel₂ →
      message_parse_tlvs fuel₁ ⟨acc⟩ (tlvs_serialize rest ++ d)
        = message_parse_tlvs fuel₂ ⟨acc ++ rest⟩ d := by
  induction rest with
  | nil =>
    intro acc d fuel₁ fuel₂ _ _ _ h1 h2
    simp only [tlvs_serialize, List.nil_append, List.append_nil]
    exact message_parse_tlvs_fuel fuel₁ fuel₂ ⟨acc⟩ d
      (by simpa [tlvs_serialize] using h1) h2
  | cons t ts ih =>
    intro acc d fuel₁ fuel₂ hcount hwf hcs h1 h2
    have htlen : t.length ≤ 65535 := hwf t (by simp)
    have hvlen : tlv_t.length t = t.value.length := rfl
    simp only [tlvs_serialize, tlv_serialize, htons_bytes, List.append_assoc,
      List.cons_append, List.nil_append] at h1 ⊢
    cases fuel₁ with
    | zero => simp at h1
    | succ f =>
      simp only [message_parse_tlvs]
      have hcap : ¬ ((⟨acc⟩ : message_t).length ≥ MAX_TLV_COUNT) := by
        simp only [message_t.length, MAX_TLV_COUNT]
        simp only [List.length_cons, MAX_TLV_COUNT] at hcount
        omega
      rw [if_neg hcap]
      have hlen256 : t.length / 256 % 256 * 256 + t.length % 256 = t.value.length := by
        rw [← hvlen]
        omega
      rw [hlen256]
      have hnotrunc : ¬ ((t.value ++ (tlvs_serialize ts ++ d)).length < t.value.length) := by
        simp only [List.length_append]
        omega
      rw [if_neg hnotrunc]
      rw [List.take_left, List.drop_left]
      simp only [checksum_records_ok, Bool.and_eq_true, Bool.or_eq_true,
        bne_iff_ne, ne_eq, beq_iff_eq] at hcs
      have hcsneg : ¬ (t.type = TLV_CHECKSUM ∧
          (message_checksum ⟨acc⟩).take 1 ≠ t.value.take 1) := by
        rintro ⟨hty, hne⟩
        rcases hcs.1 with h | h
        · exact h hty
        · exact hne h
      rw [if_neg hcsneg]
      have heta : ({ type := t.type, value := t.value } : tlv_t) = t := rfl
      rw [heta]
      rw [ih (acc ++ [t]) d f fuel₂
        (by simp only [List.length_append, List.length_cons, List.length_nil] at hcount ⊢; omega)
        (fun u hu => hwf u (by simp [hu]))
        hcs.2
        (by simp only [List.length_cons, List.length_append] at h1 ⊢; omega)
        h2]
      simp [List.append_assoc]

theorem uint32_roundtrip (x : Int) (h1 : -(2 ^ 31) ≤ x) (h2 : x < 2 ^ 31) :
    uint32_to_int32 (be32_decode ((int32_to_uint32 x) / 2 ^ 24 % 256)
      ((int32_to_uint32 x) / 2 ^ 16 % 256) ((int32_to_uint32 x) / 2 ^ 8 % 256)
      ((int32_to_uint32 x) % 256)) = x := by
  simp only [int32_to_uint32, be32_decode, uint32_to_int32]
  split_ifs <;> omega

theorem message_tlv_get_go_skip (l1 : List tlv_t) :
    ∀ (l2 : List tlv_t) (ty cap : Nat), (∀ t ∈ l1, t.type ≠ ty) →
      message_tlv_get_go (l1 ++ l2) ty cap = message_tlv_get_go l2 ty cap := by
  induction l1 with
  | nil => intro l2 ty cap _; rfl
  | cons t rest ih =>
    intro l2 ty cap h
    simp only [List.cons_append, message_tlv_get_go]
    rw [if_neg (h t (by simp))]
    exact ih l2 ty cap (fun u hu => h u (by simp [hu]))

/-- C4: message_tlv_add is atomic. When the add fails (capacity reached, which
yields MESSAGE_ERROR_TOO_MANY_TLVS, or allocation failure, which yields
MESSAGE_ERROR_OUT_OF_MEMORY — the only possible failures), the message is
returned exactly as it was; on success exactly the one new record is appended
at the end and all prior records are unchanged. -/
theorem message_tlv_add_atomic (m : message_t) (ty : Nat) (v : List Nat)
    (a : Bool) :
    ((message_tlv_add m ty v a).1 ≠ .MESSAGE_SUCCESS →
      (message_tlv_add m ty v a).2 = m)
    ∧ ((message_tlv_add m ty v a).1 = .MESSAGE_SUCCESS →
      (message_tlv_add m ty v a).2.tlv = m.tlv ++ [⟨ty, v⟩])
    ∧ ((message_tlv_add m ty v a).1 = .MESSAGE_SUCCESS ∨
       (message_tlv_add m ty v a).1 = .MESSAGE_ERROR_TOO_MANY_TLVS ∨
       (message_tlv_add m ty v a).1 = .MESSAGE_ERROR_OUT_OF_MEMORY) := by
  simp only [message_tlv_add]
  by_cases hcap : m.length ≥ MAX_TLV_COUNT
  · simp [hcap]
  · cases a <;> simp [hcap]

/-- C4 witness: a full 25-record message is returned unchanged by a failing
add, and an add onto a 1-record message appends exactly at the end. -/
theorem message_tlv_add_atomic_witness :
    (message_tlv_add ⟨List.replicate 25 ⟨1, [7]⟩⟩ 2 [9] true).2
      = ⟨List.replicate 25 ⟨1, [7]⟩⟩
    ∧ (message_tlv_add ⟨[⟨1, [7]⟩]⟩ 2 [9] true).2.tlv = [⟨1, [7]⟩] ++ [⟨2, [9]⟩] :=
  ⟨(message_tlv_add_atomic ⟨List.replicate 25 ⟨1, [7]⟩⟩ 2 [9] true).1 (by decide),
   (message_tlv_add_atomic ⟨[⟨1, [7]⟩]⟩ 2 [9] true).2.1 (by decide)⟩

/-- C5: message_tlv_get returns the value of the first record (in insertion
order) whose type matches, and returns MESSAGE_ERROR_TLV_NOT_FOUND exactly
when no record of that type exists. -/
theorem message_tlv_get_first_match (m : message_t) (ty cap : Nat) :
    (message_tlv_get m ty cap = .not_found ↔
      m.tlv.find? (fun t => t.type == ty) = none)
    ∧ (m.tlv.find? (fun t => t.type == ty) = none ↔ ∀ t ∈ m.tlv, t.type ≠ ty)
    ∧ (∀ r, m.tlv.find? (fun t => t.type == ty) = some r → r.length ≤ cap →
        message_tlv_get m ty cap = .success r.value) := by
  refine ⟨?_, by simp [List.find?_eq_none], ?_⟩
  · rw [message_tlv_get, message_tlv_get_go_eq]
    cases hf : m.tlv.find? (fun t => t.type == ty) with
    | none => simp
    | some r =>
      simp only
      constructor
      · intro h
        by_cases hle : r.length ≤ cap
        · rw [if_pos hle] at h; exact absurd h (by simp)
        · rw [if_neg hle] at h; exact absurd h (by simp)
      · intro h; exact absurd h (by simp)
  · intro r hf hle
    rw [message_tlv_get, message_tlv_get_go_eq, hf]
    simp [hle]

/-- C5 witness: with two records of type 1 present, the getter returns the
first one's value, and a missing type reports not_found. -/
theorem message_tlv_get_first_match_witness :
    message_tlv_get ⟨[⟨1, [10]⟩, ⟨1, [20]⟩]⟩ 1 5 = .success [10]
    ∧ message_tlv_get ⟨[⟨1, [10]⟩, ⟨1, [20]⟩]⟩ 2 5 = .not_found :=
  ⟨(message_tlv_get_first_match ⟨[⟨1, [10]⟩, ⟨1, [20]⟩]⟩ 1 5).2.2 ⟨1, [10]⟩
      (by decide) (by decide),
   (message_tlv_get_first_match ⟨[⟨1, [10]⟩, ⟨1, [20]⟩]⟩ 2 5).1.mpr (by decide)⟩

theorem message_roundtrip_aux (m : message_t)
    (hlen : m.length ≤ MAX_TLV_COUNT)
    (hwf : ∀ t ∈ m.tlv, t.length ≤ 65535)
    (hcs : checksum_records_ok [] m.tlv = true) :
    message_parse (tlvs_serialize m.tlv) = (.MESSAGE_SUCCESS, m) := by
  simp only [message_parse, message_init]
  have happ := message_parse_tlvs_append m.tlv [] []
    (tlvs_serialize m.tlv ++ []).length 0
    (by simpa [message_t.length] using hlen) hwf hcs (le_refl _) (by simp)
  simp only [List.append_nil] at happ
  rw [happ]
  rfl

/-- C6: message_serialized_size is the sum of 1 + 2 + length over the records;
message_serialize writes the records in insertion order, each as one type
byte, a 2-byte big-endian length and the value bytes (tlv_serialize), returns
the number of bytes written (equal to message_serialized_size) whenever the
destination capacity is at least message_serialized_size, and fails with
MESSAGE_ERROR_BUFFER_TOO_SMALL (code -3) whenever it is smaller. -/
theorem message_serialize_spec (m : message_t) :
    message_serialized_size m = (m.tlv.map (fun t => 1 + 2 + t.length)).sum
    ∧ (∀ buflen : Nat, message_serialized_size m ≤ buflen →
        message_serialize buflen m
          = ((message_serialized_size m : Int), tlvs_serialize m.tlv))
    ∧ (∀ buflen : Nat, buflen < message_serialized_size m →
        (message_serialize buflen m).1
          = message_result_code .MESSAGE_ERROR_BUFFER_TOO_SMALL) := by
  obtain ⟨ts⟩ := m
  refine ⟨?_, ?_, ?_⟩
  · induction ts with
    | nil => simp [message_serialized_size]
    | cons t rest ih =>
      rw [message_serialized_size_cons]
      simp only [List.map_cons, List.sum_cons, ih]
  · intro buflen hbuf
    simp only [message_serialize]
    rw [message_serialize_tlvs_success ts buflen [] hbuf]
    simp
  · intro buflen hbuf
    simp only [message_serialize]
    exact message_serialize_tlvs_fail ts buflen [] hbuf

/-- C6 witness: a one-record message serializes to its 4 wire bytes in a
4-byte buffer and fails with code -3 in a 3-byte buffer. -/
theorem message_serialize_spec_witness :
    message_serialize 4 ⟨[⟨1, [2]⟩]⟩ = ((4 : Int), [1, 0, 1, 2])
    ∧ (message_serialize 3 ⟨[⟨1, [2]⟩]⟩).1 = -3 := by
  constructor
  · have h := (message_serialize_spec ⟨[⟨1, [2]⟩]⟩).2.1 4 (by decide)
    exact h.trans (by decide)
  · have h := (message_serialize_spec ⟨[⟨1, [2]⟩]⟩).2.2 3 (by decide)
    exact h.trans (by decide)

/-- C2 counterexample: a message built from one successful raw add — a
TLV_CHECKSUM-typed record with value [255] (1 byte, within every size bound)
— serializes to [3, 0, 1, 255], but parsing those bytes fails with
MESSAGE_ERROR_CHECKSUM_MISMATCH instead of returning the message, because
parse verifies any TLV_CHECKSUM record against the checksum of the records
preceding it. -/
theorem message_roundtrip_cex :
    (message_tlv_add message_init TLV_CHECKSUM [255] true)
      = (.MESSAGE_SUCCESS, ⟨[⟨TLV_CHECKSUM, [255]⟩]⟩)
    ∧ (message_serialize (message_serialized_size ⟨[⟨TLV_CHECKSUM, [255]⟩]⟩)
        ⟨[⟨TLV_CHECKSUM, [255]⟩]⟩).2 = [3, 0, 1, 255]
    ∧ (message_parse [3, 0, 1, 255]).1 = .MESSAGE_ERROR_CHECKSUM_MISMATCH := by
  refine ⟨by decide, by decide, by decide⟩

/-- C2 (amended): for every message within the structural bounds the C types
guarantee (at most 25 records, each with a uint8 type tag, a value of at most
65535 uint8 bytes) in which every TLV_CHECKSUM-typed record passes parse's
checksum verification against the records preceding it (with the code's
single-byte comparison), serializing into any buffer of at least
message_serialized_size bytes and parsing the written bytes succeeds and
returns the identical message: same record count and, at every index, the
same type, length and value bytes. -/
theorem message_roundtrip (m : message_t)
    (hlen : m.length ≤ MAX_TLV_COUNT)
    (hwf : ∀ t ∈ m.tlv, tlv_wf t)
    (hcs : checksum_records_ok [] m.tlv = true)
    (buflen : Nat) (hbuf : message_serialized_size m ≤ buflen) :
    (message_serialize buflen m).1 = (message_serialized_size m : Int)
    ∧ message_parse (message_serialize buflen m).2 = (.MESSAGE_SUCCESS, m) := by
  have hser : message_serialize buflen m
      = ((message_serialized_size m : Int), tlvs_serialize m.tlv) := by
    simp only [message_serialize]
    rw [message_serialize_tlvs_success m.tlv buflen [] hbuf]
    simp
  refine ⟨by rw [hser], ?_⟩
  rw [hser]
  exact message_roundtrip_aux m hlen (fun t ht => (hwf t ht).2.1) hcs

/-- C2 witness: a command record followed by its checksum record round-trips
through serialize and parse. -/
theorem message_roundtrip_witness :
    message_parse (message_serialize 11 ⟨[⟨1, [2]⟩, ⟨3, [60, 12, 142, 161]⟩]⟩).2
      = (.MESSAGE_SUCCESS, ⟨[⟨1, [2]⟩, ⟨3, [60, 12, 142, 161]⟩]⟩) :=
  (message_roundtrip ⟨[⟨1, [2]⟩, ⟨3, [60, 12, 142, 161]⟩]⟩ (by decide)
    (by decide) (by decide) 11 (by decide)).2

/-- C7: parsing the empty buffer succeeds with zero records; after any valid
record prefix (fewer than 25 records), a final record cut off mid-header
(only 1 or 2 bytes remain) or mid-value (fewer value bytes remain than the
2-byte big-endian length field declares) makes parse fail with
MESSAGE_ERROR_PARSE_ERROR. -/
theorem message_parse_empty_truncation :
    message_parse [] = (.MESSAGE_SUCCESS, message_init)
    ∧ (∀ (ts : List tlv_t) (d : List Nat), ts.length < MAX_TLV_COUNT →
        (∀ t ∈ ts, t.length ≤ 65535) → checksum_records_ok [] ts = true →
        (d.length = 1 ∨ d.length = 2) →
        (message_parse (tlvs_serialize ts ++ d)).1 = .MESSAGE_ERROR_PARSE_ERROR)
    ∧ (∀ (ts : List tlv_t) (ty lhi llo : Nat) (v : List Nat),
        ts.length < MAX_TLV_COUNT → (∀ t ∈ ts, t.length ≤ 65535) →
        checksum_records_ok [] ts = true → lhi < 256 → llo < 256 →
        v.length < lhi * 256 + llo →
        (message_parse (tlvs_serialize ts ++ ty :: lhi :: llo :: v)).1
          = .MESSAGE_ERROR_PARSE_ERROR) := by
  refine ⟨rfl, ?_, ?_⟩
  · intro ts d hlen hwf hcs hd
    simp only [message_parse, message_init]
    rw [message_parse_tlvs_append ts [] d (tlvs_serialize ts ++ d).length
      d.length (by simp; omega) hwf hcs (le_refl _) (le_refl _)]
    simp only [List.nil_append]
    have hcap : ¬ ((⟨ts⟩ : message_t).length ≥ MAX_TLV_COUNT) := by
      simp only [message_t.length]
      omega
    cases d with
    | nil => simp at hd
    | cons a d1 =>
      cases d1 with
      | nil =>
        simp only [message_parse_tlvs]
        rw [if_neg hcap]
      | cons b d2 =>
        cases d2 with
        | nil =>
          simp only [message_parse_tlvs]
          rw [if_neg hcap]
        | cons c d3 => simp at hd
  · intro ts ty lhi llo v hlen hwf hcs hhi hlo hv
    simp only [message_parse, message_init]
    rw [message_parse_tlvs_append ts [] (ty :: lhi :: llo :: v)
      (tlvs_serialize ts ++ ty :: lhi :: llo :: v).length
      (ty :: lhi :: llo :: v).length (by simp; omega) hwf hcs
      (le_refl _) (le_refl _)]
    simp only [List.nil_append, List.length_cons, message_parse_tlvs]
    have hcap : ¬ ((⟨ts⟩ : message_t).length ≥ MAX_TLV_COUNT) := by
      simp only [message_t.length]
      omega
    rw [if_neg hcap, if_pos hv]

/-- C7 witness: the record [1, 0, 1, 2] followed by a 2-byte header stub
fails, and a record declaring 5 value bytes but providing 1 fails. -/
theorem message_parse_empty_truncation_witness :
    (message_parse (tlvs_serialize [⟨1, [2]⟩] ++ [9, 0])).1
      = .MESSAGE_ERROR_PARSE_ERROR
    ∧ (message_parse (tlvs_serialize [⟨1, [2]⟩] ++ 9 :: 0 :: 5 :: [7])).1
      = .MESSAGE_ERROR_PARSE_ERROR :=
  ⟨message_parse_empty_truncation.2.1 [⟨1, [2]⟩] [9, 0] (by decide) (by decide)
      (by decide) (by decide),
   message_parse_empty_truncation.2.2 [⟨1, [2]⟩] 9 0 5 [7] (by decide)
      (by decide) (by decide) (by decide) (by decide) (by decide)⟩

/-- C3: the record count stays in [0, 25] through every operation:
message_tlv_add on a message already holding 25 records fails with
MESSAGE_ERROR_TOO_MANY_TLVS and leaves it untouched, add and init and parse
never produce a count above 25, message_parse fails with
MESSAGE_ERROR_TOO_MANY_TLVS when input bytes remain after 25 parsed records,
and a message of exactly 25 records serializes and parses back successfully
(never silently truncated). -/
theorem message_capacity_invariant :
    (∀ (m : message_t) (ty : Nat) (v : List Nat) (a : Bool),
        m.length = MAX_TLV_COUNT →
        message_tlv_add m ty v a = (.MESSAGE_ERROR_TOO_MANY_TLVS, m))
    ∧ (∀ (m : message_t) (ty : Nat) (v : List Nat) (a : Bool),
        m.length ≤ MAX_TLV_COUNT →
        ((message_tlv_add m ty v a).2).length ≤ MAX_TLV_COUNT)
    ∧ message_init.length ≤ MAX_TLV_COUNT
    ∧ (∀ data : List Nat, ((message_parse data).2).length ≤ MAX_TLV_COUNT)
    ∧ (∀ (ts : List tlv_t) (extra : List Nat), ts.length = MAX_TLV_COUNT →
        (∀ t ∈ ts, t.length ≤ 65535) → checksum_records_ok [] ts = true →
        extra ≠ [] →
        (message_parse (tlvs_serialize ts ++ extra)).1
          = .MESSAGE_ERROR_TOO_MANY_TLVS)
    ∧ (∀ ts : List tlv_t, ts.length = MAX_TLV_COUNT →
        (∀ t ∈ ts, t.length ≤ 65535) → checksum_records_ok [] ts = true →
        message_parse (message_serialize (message_serialized_size ⟨ts⟩)
          ⟨ts⟩).2 = (.MESSAGE_SUCCESS, ⟨ts⟩)) := by
  refine ⟨?_, ?_, by decide, ?_, ?_, ?_⟩
  · intro m ty v a hm
    simp only [message_tlv_add]
    rw [if_pos (by omega)]
  · intro m ty v a hm
    simp only [message_tlv_add]
    by_cases hcap : m.length ≥ MAX_TLV_COUNT
    · rw [if_pos hcap]
      exact hm
    · rw [if_neg hcap]
      cases a with
      | false => exact hm
      | true =>
        simp only [Bool.not_true, Bool.false_eq_true, if_false,
          message_t.length, List.length_append, List.length_cons,
          List.length_nil, MAX_TLV_COUNT]
        simp only [message_t.length, MAX_TLV_COUNT] at hcap
        omega
  · intro data
    exact message_parse_tlvs_length_le data.length message_init data (by decide)
  · intro ts extra hts hwf hcs hextra
    simp only [message_parse, message_init]
    rw [message_parse_tlvs_append ts [] extra
      (tlvs_serialize ts ++ extra).length extra.length (by simp; omega)
      hwf hcs (le_refl _) (le_refl _)]
    cases extra with
    | nil => exact absurd rfl hextra
    | cons e rest =>
      simp only [List.nil_append, List.length_cons, message_parse_tlvs]
      rw [if_pos (by simp only [message_t.length]; omega)]
  · intro ts hts hwf hcs
    have hser : message_serialize (message_serialized_size ⟨ts⟩) ⟨ts⟩
        = ((message_serialized_size ⟨ts⟩ : Int), tlvs_serialize ts) := by
      simp only [message_serialize]
      rw [message_serialize_tlvs_success ts _ [] (le_refl _)]
      simp
    rw [hser]
    exact message_roundtrip_aux ⟨ts⟩ (by simp [message_t.length]; omega) hwf hcs

/-- C3 witness: a full 25-record message rejects a further add unchanged;
trailing bytes after its 25 serialized records are rejected with
MESSAGE_ERROR_TOO_MANY_TLVS; the 25-record message itself round-trips. -/
theorem message_capacity_invariant_witness :
    message_tlv_add ⟨List.replicate 25 ⟨1, [7]⟩⟩ 2 [9] true
      = (.MESSAGE_ERROR_TOO_MANY_TLVS, ⟨List.replicate 25 ⟨1, [7]⟩⟩)
    ∧ (message_parse (tlvs_serialize (List.replicate 25 ⟨1, [7]⟩) ++ [0])).1
      = .MESSAGE_ERROR_TOO_MANY_TLVS
    ∧ message_parse (message_serialize
        (message_serialized_size ⟨List.replicate 25 ⟨1, [7]⟩⟩)
        ⟨List.replicate 25 ⟨1, [7]⟩⟩).2
      = (.MESSAGE_SUCCESS, ⟨List.replicate 25 ⟨1, [7]⟩⟩) :=
  ⟨message_capacity_invariant.1 ⟨List.replicate 25 ⟨1, [7]⟩⟩ 2 [9] true
      (by decide),
   message_capacity_invariant.2.2.2.2.1 (List.replicate 25 ⟨1, [7]⟩) [0]
      (by decide) (by decide) (by decide) (by decide),
   message_capacity_invariant.2.2.2.2.2 (List.replicate 25 ⟨1, [7]⟩)
      (by decide) (by decide) (by decide)⟩

theorem message_tlv_get_go_single (t : tlv_t) (ty cap : Nat)
    (h1 : t.type = ty) (h2 : t.length ≤ cap) :
    message_tlv_get_go [t] ty cap = .success t.value := by
  simp [message_tlv_get_go, h1, h2]

/-- C8: message_checksum is the 4-byte network-order image of the running
CRC32 (initial value 0) over exactly the concatenated value bytes of the
records in order (type and length bytes contribute nothing), and
message_tlv_add_checksum appends a TLV_CHECKSUM record whose 4-byte value is
the checksum over the records present at the moment of the call; a record
appended afterwards leaves that stored record unchanged. -/
theorem message_checksum_spec (m : message_t) :
    message_checksum m = htonl_bytes (crc32 0 (m.tlv.map tlv_t.value).flatten)
    ∧ (message_checksum m).length = 4
    ∧ (m.length < MAX_TLV_COUNT →
        message_tlv_add_checksum m true
          = (.MESSAGE_SUCCESS, ⟨m.tlv ++ [⟨TLV_CHECKSUM, message_checksum m⟩]⟩))
    ∧ (m.length < MAX_TLV_COUNT → ∀ (ty : Nat) (v : List Nat) (a : Bool),
        (((message_tlv_add (message_tlv_add_checksum m true).2 ty v a).2).tlv)[m.length]?
          = some ⟨TLV_CHECKSUM, message_checksum m⟩) := by
  have hadd : m.length < MAX_TLV_COUNT →
      message_tlv_add_checksum m true
        = (.MESSAGE_SUCCESS, ⟨m.tlv ++ [⟨TLV_CHECKSUM, message_checksum m⟩]⟩) := by
    intro hm
    simp only [message_tlv_add_checksum, message_tlv_add]
    rw [if_neg (by omega)]
    simp
  refine ⟨?_, ?_, hadd, ?_⟩
  · rw [message_checksum, crc32_fold_records]
  · simp [message_checksum, htonl_bytes]
  · intro hm ty v a
    rw [hadd hm]
    simp only [message_tlv_add]
    have hidx : (m.tlv ++ [(⟨TLV_CHECKSUM, message_checksum m⟩ : tlv_t)])[m.length]?
        = some ⟨TLV_CHECKSUM, message_checksum m⟩ := by
      simp only [message_t.length]
      exact List.getElem?_concat_length m.tlv _
    by_cases hcap : (⟨m.tlv ++ [(⟨TLV_CHECKSUM, message_checksum m⟩ : tlv_t)]⟩ : message_t).length
        ≥ MAX_TLV_COUNT
    · rw [if_pos hcap]
      exact hidx
    · rw [if_neg hcap]
      cases a with
      | false => exact hidx
      | true =>
        simp only [Bool.not_true, Bool.false_eq_true, if_false]
        rw [List.getElem?_append_left
          (by simp only [message_t.length, List.length_append, List.length_cons,
            List.length_nil]; omega)]
        exact hidx

/-- C8 witness: the checksum record appended after a single command record
stores the checksum of that record, and stays unchanged after a further
current-reading record is appended. -/
theorem message_checksum_spec_witness :
    message_tlv_add_checksum ⟨[⟨1, [2]⟩]⟩ true
      = (.MESSAGE_SUCCESS, ⟨[⟨1, [2]⟩, ⟨3, [60, 12, 142, 161]⟩]⟩)
    ∧ (((message_tlv_add (message_tlv_add_checksum ⟨[⟨1, [2]⟩]⟩ true).2
        5 [0, 0] true).2).tlv)[1]? = some ⟨3, [60, 12, 142, 161]⟩ :=
  ⟨((message_checksum_spec ⟨[⟨1, [2]⟩]⟩).2.2.1 (by decide)).trans (by decide),
   ((message_checksum_spec ⟨[⟨1, [2]⟩]⟩).2.2.2 (by decide) 5 [0, 0] true).trans
     (by decide)⟩

/-- C9: adding a motor position (x, y, z) of int32 values stores exactly the
concatenation of the big-endian 4-byte two's complement encodings of x, y, z,
and the typed getter on the resulting message returns the identical triple
(when no earlier motor-position record shadows it and the message has room). -/
theorem motor_position_roundtrip (m : message_t) (x y z : Int)
    (hm : m.length < MAX_TLV_COUNT)
    (hnone : ∀ t ∈ m.tlv, t.type ≠ TLV_MOTOR_POSITION)
    (hx1 : -(2 ^ 31) ≤ x) (hx2 : x < 2 ^ 31)
    (hy1 : -(2 ^ 31) ≤ y) (hy2 : y < 2 ^ 31)
    (hz1 : -(2 ^ 31) ≤ z) (hz2 : z < 2 ^ 31) :
    message_tlv_add_motor_position m ⟨x, y, z⟩ true
      = (.MESSAGE_SUCCESS, ⟨m.tlv ++ [⟨TLV_MOTOR_POSITION,
          htonl_bytes (int32_to_uint32 x) ++ htonl_bytes (int32_to_uint32 y)
            ++ htonl_bytes (int32_to_uint32 z)⟩]⟩)
    ∧ message_tlv_get_motor_position
        (message_tlv_add_motor_position m ⟨x, y, z⟩ true).2
      = .success ⟨x, y, z⟩ := by
  have hadd : message_tlv_add_motor_position m ⟨x, y, z⟩ true
      = (.MESSAGE_SUCCESS, ⟨m.tlv ++ [⟨TLV_MOTOR_POSITION,
          motor_position_bytes ⟨x, y, z⟩⟩]⟩) := by
    simp only [message_tlv_add_motor_position, message_tlv_add]
    rw [if_neg (by omega)]
    simp
  refine ⟨hadd, ?_⟩
  rw [hadd]
  have hval : motor_position_bytes ⟨x, y, z⟩
      = [int32_to_uint32 x / 2 ^ 24 % 256, int32_to_uint32 x / 2 ^ 16 % 256,
         int32_to_uint32 x / 2 ^ 8 % 256, int32_to_uint32 x % 256,
         int32_to_uint32 y / 2 ^ 24 % 256, int32_to_uint32 y / 2 ^ 16 % 256,
         int32_to_uint32 y / 2 ^ 8 % 256, int32_to_uint32 y % 256,
         int32_to_uint32 z / 2 ^ 24 % 256, int32_to_uint32 z / 2 ^ 16 % 256,
         int32_to_uint32 z / 2 ^ 8 % 256, int32_to_uint32 z % 256] := by
    simp [motor_position_bytes, htonl_bytes]
  simp only [message_tlv_get_motor_position, message_tlv_get]
  rw [message_tlv_get_go_skip m.tlv _ TLV_MOTOR_POSITION 12 hnone]
  rw [message_tlv_get_go_single ⟨TLV_MOTOR_POSITION, motor_position_bytes ⟨x, y, z⟩⟩
    TLV_MOTOR_POSITION 12 rfl
    (by simp [tlv_t.length, motor_position_bytes, htonl_bytes])]
  rw [hval]
  show typed_get_result.success
      (⟨uint32_to_int32 (be32_decode (int32_to_uint32 x / 2 ^ 24 % 256)
          (int32_to_uint32 x / 2 ^ 16 % 256) (int32_to_uint32 x / 2 ^ 8 % 256)
          (int32_to_uint32 x % 256)),
        uint32_to_int32 (be32_decode (int32_to_uint32 y / 2 ^ 24 % 256)
          (int32_to_uint32 y / 2 ^ 16 % 256) (int32_to_uint32 y / 2 ^ 8 % 256)
          (int32_to_uint32 y % 256)),
        uint32_to_int32 (be32_decode (int32_to_uint32 z / 2 ^ 24 % 256)
          (int32_to_uint32 z / 2 ^ 16 % 256) (int32_to_uint32 z / 2 ^ 8 % 256)
          (int32_to_uint32 z % 256))⟩ : tlv_motor_position_t)
      = typed_get_result.success ⟨x, y, z⟩
  rw [uint32_roundtrip x hx1 hx2, uint32_roundtrip y hy1 hy2,
    uint32_roundtrip z hz1 hz2]

/-- C9 witness: the triple (-1, 1000000, 0) round-trips on a fresh message and
x = -1 is stored as the bytes FF FF FF FF. -/
theorem motor_position_roundtrip_witness :
    message_tlv_add_motor_position message_init ⟨-1, 1000000, 0⟩ true
      = (.MESSAGE_SUCCESS, ⟨[⟨TLV_MOTOR_POSITION,
          [255, 255, 255, 255, 0, 15, 66, 64, 0, 0, 0, 0]⟩]⟩)
    ∧ message_tlv_get_motor_position
        (message_tlv_add_motor_position message_init ⟨-1, 1000000, 0⟩ true).2
      = .success ⟨-1, 1000000, 0⟩ :=
  ⟨((motor_position_roundtrip message_init (-1) 1000000 0 (by decide)
      (by decide) (by decide) (by decide) (by decide) (by decide) (by decide)
      (by decide)).1).trans (by decide),
   (motor_position_roundtrip message_init (-1) 1000000 0 (by decide)
      (by decide) (by decide) (by decide) (by decide) (by decide) (by decide)
      (by decide)).2⟩

/-- C10: message_tlv_get copies exactly the matched record's length bytes and
asserts length ≤ destination capacity, so a wire-parsed command record of
length 2 read through message_tlv_get_command (1-byte destination) fails the
assertion instead of returning an error code: parse accepts [1, 0, 2, 0, 0]
(a TLV_COMMAND record with declared length 2), and the typed getter then
aborts. -/
theorem message_tlv_get_assert_reachable (m : message_t) (ty cap : Nat) :
    (∀ r, m.tlv.find? (fun t => t.type == ty) = some r →
        (r.length ≤ cap → message_tlv_get m ty cap = .success r.value)
        ∧ (cap < r.length → message_tlv_get m ty cap = .assert_failed))
    ∧ ((message_parse [1, 0, 2, 0, 0]).1 = .MESSAGE_SUCCESS
       ∧ (message_parse [1, 0, 2, 0, 0]).2 = ⟨[⟨1, [0, 0]⟩]⟩
       ∧ message_tlv_get_command (message_parse [1, 0, 2, 0, 0]).2
           = .assert_failed) := by
  refine ⟨?_, by decide, by decide, by decide⟩
  intro r hf
  rw [message_tlv_get, message_tlv_get_go_eq, hf]
  constructor
  · intro hle
    simp [hle]
  · intro hgt
    simp [show ¬ r.length ≤ cap from by omega]

/-- C10 witness: the getter aborts on a 2-byte record read with a 1-byte
destination capacity. -/
theorem message_tlv_get_assert_reachable_witness :
    message_tlv_get ⟨[⟨1, [0, 0]⟩]⟩ 1 1 = .assert_failed :=
  ((message_tlv_get_assert_reachable ⟨[⟨1, [0, 0]⟩]⟩ 1 1).1 ⟨1, [0, 0]⟩
    (by decide)).2 (by decide)

/-- C1: the checksum verification during message_parse is narrowed by an
operator-precedence slip — the memcmp size argument in message.c line 91 is
the constant sizeof(uint32_t) != 0, i.e. 1 — so only the first byte of the
4-byte network-order checksum is compared. A two-record message [A, B] with a
correct trailing checksum record parses successfully; mutating A's value byte
from 2 to 149 changes the CRC32 from 7d236e41 to 7d4048ba, whose full 4 bytes
differ from the embedded checksum but whose first byte still matches, and the
corrupted message is accepted instead of failing with
MESSAGE_ERROR_CHECKSUM_MISMATCH as the claim requires. -/
theorem message_parse_checksum_bug :
    message_parse [1, 0, 1, 2, 100, 0, 5, 1, 2, 3, 4, 5, 3, 0, 4, 125, 35, 110, 65]
      = (.MESSAGE_SUCCESS,
         ⟨[⟨1, [2]⟩, ⟨100, [1, 2, 3, 4, 5]⟩, ⟨3, [125, 35, 110, 65]⟩]⟩)
    ∧ (message_parse
        [1, 0, 1, 149, 100, 0, 5, 1, 2, 3, 4, 5, 3, 0, 4, 125, 35, 110, 65]).1
      = .MESSAGE_SUCCESS
    ∧ message_checksum ⟨[⟨1, [149]⟩, ⟨100, [1, 2, 3, 4, 5]⟩]⟩ ≠ [125, 35, 110, 65]
    ∧ (message_checksum ⟨[⟨1, [149]⟩, ⟨100, [1, 2, 3, 4, 5]⟩]⟩).take 1 = [125] := by
  refine ⟨by decide, by decide, by decide, by decide⟩
